import Mathlib

/-!
Shallow embedding of the VDP (Vehicle Diagnostic Protocol) frame codec,
streaming parser and transaction layer of the repository, translated from
`src/VDPFrameParser/src/vdp_parser.cpp` (the implementation compiled into the
`vdp_parser` library by the project's `CMakeLists.txt`) together with the
declarations of `src/unnamed/part_000` (`vdp_parser.h`).

Bytes are modelled as `Nat`; a byte coming from the wire or from a `uint8_t`
field is below 256.  Machine casts are made explicit with `% 256` at the one
place the C++ code performs a narrowing cast.  The byte buffer
(`std::deque<uint8_t> buffer_`) is a `List Nat` consumed from the front, and
the transaction table (`std::map<uint8_t, PendingRequest>`) is an association
list kept sorted by key.  A fallible C++ path (a `throw`) is modelled with
`Except`.
-/

namespace VDP

/-- Logical frame, mirroring `struct VdpFrame` of `vdp_parser.h`:
`ecu_id` and `command` are `uint8_t`, `data` a byte vector. -/
structure VdpFrame where
  ecu_id : Nat
  command : Nat
  data : List Nat
deriving DecidableEq

/-- Mirror of `enum class ParseStatus` of `vdp_parser.h`. -/
inductive ParseStatus where
  | Success
  | Incomplete
  | Invalid
  | Timeout
  | Nack
  | Error
deriving DecidableEq

/-- Mirror of `struct ParseResult` of `vdp_parser.h` (without the timestamp
field, which no code path reads). -/
structure ParseResult where
  status : ParseStatus
  frame : Option VdpFrame
  error : String
  raw_bytes : List Nat
deriving DecidableEq

/-- Decidable equality for `Except`, needed to evaluate propositions about
`serializeFrame` by `decide`. -/
instance {ε α : Type} [DecidableEq ε] [DecidableEq α] : DecidableEq (Except ε α)
  | Except.error a, Except.error b =>
    if h : a = b then Decidable.isTrue (congrArg Except.error h)
    else Decidable.isFalse (fun hc => h (Except.error.inj hc))
  | Except.error _, Except.ok _ => Decidable.isFalse (fun hc => Except.noConfusion hc)
  | Except.ok _, Except.error _ => Decidable.isFalse (fun hc => Except.noConfusion hc)
  | Except.ok a, Except.ok b =>
    if h : a = b then Decidable.isTrue (congrArg Except.ok h)
    else Decidable.isFalse (fun hc => h (Except.ok.inj hc))

/-- Start sentinel `0x7E` (`START_BYTE` in vdp_parser.h). -/
def START_BYTE : Nat := 126

/-- End sentinel `0x7F` (`END_BYTE` in vdp_parser.h). -/
def END_BYTE : Nat := 127

/-- Modelled from the spec: the header `VDPFrameParser/include/vdp_parser.h`
that defines `MIN_FRAME_LEN` (used by `VdpParser::extractFrames`) is not in
`src/`; the spec fixes the valid range of the length byte as `[6, 253]`. -/
def MIN_FRAME_LEN : Nat := 6

/-- Modelled from the spec: the header `VDPFrameParser/include/vdp_parser.h`
that defines `MAX_FRAME_LEN` (used by `VdpParser::extractFrames`) is not in
`src/`; the spec fixes the valid range of the length byte as `[6, 253]`. -/
def MAX_FRAME_LEN : Nat := 253

/-- Lower-case hex digit, as printed by `std::hex`. -/
def hexDigitChar (n : Nat) : Char :=
  if n < 10 then Char.ofNat (48 + n) else Char.ofNat (87 + n)

/-- Decimal rendering of a byte value (0–255), as printed by
`std::to_string` on the promoted `int`. -/
def byteDec (n : Nat) : String :=
  if n < 10 then String.mk [Char.ofNat (48 + n)]
  else if n < 100 then String.mk [Char.ofNat (48 + n / 10), Char.ofNat (48 + n % 10)]
  else String.mk [Char.ofNat (48 + n / 100), Char.ofNat (48 + n / 10 % 10), Char.ofNat (48 + n % 10)]

/-- Variable-width hex of a byte value, as printed by `ss << std::hex << (int)b`
with no width modifier (used in checksum diagnostics). -/
def byteHexVar (n : Nat) : String :=
  if n < 16 then String.mk [hexDigitChar n]
  else String.mk [hexDigitChar (n / 16), hexDigitChar (n % 16)]

/-- Two-digit zero-padded hex, mirroring the static helper `to_hex` of
vdp_parser.cpp (`std::setw(2)` with a fill of zero). -/
def to_hex (b : Nat) : String :=
  String.mk [hexDigitChar (b / 16 % 16), hexDigitChar (b % 16)]

/-- Embedding of `VdpParser::serializeFrame` (vdp_parser.cpp lines 18–52).
The C++ function throws `std::runtime_error("Frame data too large")` when
`2 + data.size() > 251`; the throw is modelled as `Except.error`.  The length
byte is `uint8_t(data_length + 2)` where `data_length = 2 + data.size()`, and
the checksum is the XOR of every emitted byte after `START_BYTE` up to and
including the last data byte. -/
def serializeFrame (frame : VdpFrame) : Except String (List Nat) :=
  let data_length := 2 + frame.data.length
  if data_length > 255 - 4 then Except.error ("Frame data too large")
  else
    let body := (data_length + 2) % 256 :: frame.ecu_id :: frame.command :: frame.data
    let checksum := body.foldl Nat.xor 0
    Except.ok (START_BYTE :: body ++ [checksum, END_BYTE])

/-- Embedding of `VdpParser::verifyChecksum` (vdp_parser.cpp lines 54–82):
XOR of `frame[1 .. size-3]` compared with `frame[size-2]`; on failure the
debug string is set.  Returns the C++ pair (return value, `debugOutput`). -/
def verifyChecksum (frame : List Nat) : Bool × String :=
  if frame.length < 6 then
    (false, "Frame too short for checksum verification (size: " ++ byteDec frame.length ++ ")")
  else
    let calculated_checksum := ((frame.drop 1).take (frame.length - 3)).foldl Nat.xor 0
    let expected_checksum := frame.getD (frame.length - 2) 0
    if calculated_checksum ≠ expected_checksum then
      (false, "Checksum verification failed: calculated=0x" ++ byteHexVar calculated_checksum
        ++ ", expected=0x" ++ byteHexVar expected_checksum)
    else (true, "")

/-- Discarding every byte before the first `START_BYTE`: the scan at the top
of the `while` loop of `VdpParser::extractFrames` (lines 90–97). -/
def dropGarbage (buf : List Nat) : List Nat :=
  buf.dropWhile (fun b => b != START_BYTE)

/-- Result of one iteration of the `while (true)` loop of
`VdpParser::extractFrames`: either the loop breaks leaving a residual
buffer, or it emits one `ParseResult` and continues on the remaining
buffer. -/
inductive StepResult where
  | stop (rest : List Nat)
  | emit (r : ParseResult) (rest : List Nat)
deriving DecidableEq

/-- One iteration of the extraction loop of `VdpParser::extractFrames`
(vdp_parser.cpp lines 87–147): strip garbage up to `START_BYTE`; stop if
fewer than 2 bytes remain; reject a length byte outside
`[MIN_FRAME_LEN, MAX_FRAME_LEN]` popping one byte; stop if the buffer holds
fewer than `frame_length` bytes; reject a missing end marker popping one
byte; reject a bad checksum popping one byte; otherwise emit the parsed
frame and consume `frame_length` bytes. -/
def extractStep (buf : List Nat) : StepResult :=
  let b := dropGarbage buf
  if b.length < 2 then StepResult.stop b
  else
    let frame_length := b.getD 1 0
    if frame_length < MIN_FRAME_LEN ∨ MAX_FRAME_LEN < frame_length then
      StepResult.emit
        ⟨ParseStatus.Invalid, none, "Invalid frame length: " ++ byteDec frame_length, b.take 2⟩
        (b.drop 1)
    else if b.length < frame_length then StepResult.stop b
    else if b.getD (frame_length - 1) 0 ≠ END_BYTE then
      StepResult.emit
        ⟨ParseStatus.Invalid, none,
          "End marker not found at position: " ++ byteDec (frame_length - 1), b.take frame_length⟩
        (b.drop 1)
    else
      let frame := b.take frame_length
      match verifyChecksum frame with
      | (false, checksumDebug) =>
          StepResult.emit ⟨ParseStatus.Invalid, none, checksumDebug, frame⟩ (b.drop 1)
      | (true, _) =>
          let vdp_frame : VdpFrame :=
            ⟨frame.getD 2 0, frame.getD 3 0, (frame.drop 4).take (frame_length - 6)⟩
          StepResult.emit ⟨ParseStatus.Success, some vdp_frame, "", frame⟩ (b.drop frame_length)

/-- The extraction loop, iterating `extractStep` with explicit fuel.  Every
emitting step strictly shortens the buffer (`extractStep_emit_shrinks`
below), so `buf.length` fuel always suffices (`extractLoop_congr`); when the
fuel hits zero the buffer is already empty, and the returned pair agrees
with the loop's break path. -/
def extractLoop : Nat → List Nat → List ParseResult × List Nat
  | 0, buf => ([], dropGarbage buf)
  | fuel + 1, buf =>
    match extractStep buf with
    | StepResult.stop rest => ([], rest)
    | StepResult.emit r rest =>
      let p := extractLoop fuel rest
      (r :: p.1, p.2)

/-- Embedding of `VdpParser::extractFrames` (vdp_parser.cpp lines 84–151) as
a pure function from the byte buffer to the emitted results and the residual
buffer.  (The trailing `checkTimeouts()` call touches only the transaction
table, never the byte buffer or the returned results; it is modelled
separately as `checkTimeouts`.) -/
def extractFrames (buf : List Nat) : List ParseResult × List Nat :=
  extractLoop buf.length buf

/-- Mirror of `struct PendingRequest` of `vdp_parser.h`: the stored request
frame, its absolute deadline (`std::chrono` time point, modelled as a `Nat`
clock value), and the `completed` flag.  The response handler is a
`std::function` whose only observable effect is the `ParseResult` it
receives; handler invocations are therefore modelled as returned
`ParseResult` values. -/
structure PendingRequest where
  request_frame : VdpFrame
  timeout_time : Nat
  completed : Bool
deriving DecidableEq

/-- The transaction table `std::map<uint8_t, PendingRequest>
pending_requests_`: an association list sorted strictly by key. -/
abbrev PendingMap := List (Nat × PendingRequest)

/-- Mirror of `pending_requests_[sequence] = request`: `std::map::operator[]`
followed by assignment — inserts at the sorted position, or silently
overwrites the entry already stored under the key. -/
def mapInsert (k : Nat) (v : PendingRequest) : PendingMap → PendingMap
  | [] => [(k, v)]
  | (k', v') :: rest =>
    if k < k' then (k, v) :: (k', v') :: rest
    else if k = k' then (k, v) :: rest
    else (k', v') :: mapInsert k v rest

/-- Mirror of `pending_requests_.erase(it)` for the entry found under key
`k`. -/
def mapErase (k : Nat) : PendingMap → PendingMap
  | [] => []
  | (k', v') :: rest => if k = k' then rest else (k', v') :: mapErase k rest

/-- The transaction state of a `VdpParser`: the pending-request table and the
`std::atomic<uint8_t> last_sequence_` counter. -/
structure TransState where
  pending_requests : PendingMap
  last_sequence : Nat
deriving DecidableEq

/-- Embedding of `VdpParser::getNextSequence` (vdp_parser.cpp lines 396–399):
`return ++last_sequence_;` on a `uint8_t`, i.e. increment with wrap at 256,
returning the new value. -/
def getNextSequence (last_sequence : Nat) : Nat :=
  (last_sequence + 1) % 256

/-- Embedding of `VdpParser::sendFrame` (vdp_parser.cpp lines 193–219):
substitute the default timeout for `0`, allocate the next sequence number,
and store the pending request under it with `completed = false`.  (The
actual wire send is an unimplemented TODO in the source.) -/
def sendFrame (st : TransState) (frame : VdpFrame) (now timeout_ms default_timeout : Nat) :
    TransState :=
  let t := if timeout_ms = 0 then default_timeout else timeout_ms
  let sequence := getNextSequence st.last_sequence
  { pending_requests := mapInsert sequence ⟨frame, now + t, false⟩ st.pending_requests
    last_sequence := sequence }

/-- Embedding of `VdpParser::sendAndWait` (vdp_parser.cpp lines 222–244) in
the case in which the condition-variable wait reaches the deadline with no
response having arrived: the only state change is the registration performed
by `sendFrame`, and the returned result is
`{ParseStatus::Timeout, std::nullopt, "Response timeout", {}}`. -/
def sendAndWaitTimedOut (st : TransState) (frame : VdpFrame)
    (now timeout_ms default_timeout : Nat) : ParseResult × TransState :=
  (⟨ParseStatus.Timeout, none, "Response timeout", []⟩,
   sendFrame st frame now timeout_ms default_timeout)

/-- Embedding of `VdpParser::findMatchingRequest` (vdp_parser.cpp lines
402–414): walk the table in key order and return the first entry that is not
completed and whose stored request has the same `command` and the same
`ecu_id` as the response frame (the comparison is on the raw `ecu_id`
bytes). -/
def findMatchingRequest (pending_requests : PendingMap) (response_frame : VdpFrame) :
    Option (Nat × PendingRequest) :=
  pending_requests.find? (fun e =>
    !e.2.completed && e.2.request_frame.command == response_frame.command
      && e.2.request_frame.ecu_id == response_frame.ecu_id)

/-- The static helper `getStatusString` of vdp_parser.cpp (lines 317–327). -/
def getStatusString (status_code : Nat) : String :=
  if status_code = 0 then ("Success")
  else if status_code = 1 then ("Invalid Command")
  else if status_code = 2 then ("Invalid Data")
  else if status_code = 3 then ("ECU Busy")
  else if status_code = 255 then ("General Error")
  else if status_code = 128 then ("Invalid Status")
  else ("Unknown Status")

/-- Embedding of `VdpParser::handleAckNak` (vdp_parser.cpp lines 346–393).
Returns the `ParseResult` handed to the handler of the matched pending entry
(`none` when the control frame is dropped) together with the table after the
removal. -/
def handleAckNak (pending_requests : PendingMap) (frame : VdpFrame) (is_ack : Bool) :
    Option ParseResult × PendingMap :=
  match frame.data with
  | [] => (none, pending_requests)
  | sequence :: _ =>
    match List.lookup sequence pending_requests with
    | none => (none, pending_requests)
    | some _ =>
      let result : ParseResult :=
        if is_ack then
          if frame.data.length > 1 then
            let status := frame.data.getD 1 0
            if status = 128 ∨ status = 0 then
              ⟨ParseStatus.Error, some frame,
                "ACK with invalid status code: 0x" ++ to_hex status, []⟩
            else ⟨ParseStatus.Success, some frame, "ACK received", []⟩
          else ⟨ParseStatus.Success, some frame, "ACK received", []⟩
        else
          let base := "NAK received"
          let error :=
            if frame.data.length > 1 then
              let error_code := frame.data.getD 1 0
              let msg := base ++ ": " ++ getStatusString error_code
                ++ " (0x" ++ to_hex error_code ++ ")"
              if error_code = 0 ∨ error_code = 128 then msg ++ " - Invalid status code"
              else msg
            else base
          ⟨ParseStatus.Nack, some frame, error, []⟩
      (some result, mapErase sequence pending_requests)

/-- Embedding of `VdpParser::checkTimeouts` (vdp_parser.cpp lines 417–431):
every entry with `now > timeout_time` is removed, its handler receiving a
`Timeout` result; the invoked results are returned in table order. -/
def checkTimeouts (pending_requests : PendingMap) (now : Nat) :
    List ParseResult × PendingMap :=
  match pending_requests with
  | [] => ([], [])
  | (k, v) :: rest =>
    let p := checkTimeouts rest now
    if now > v.timeout_time then
      (⟨ParseStatus.Timeout, none, "Request timed out", []⟩ :: p.1, p.2)
    else (p.1, (k, v) :: p.2)

-- Structural lemmas about the extraction loop.

lemma dropGarbage_suffix (l : List Nat) : (dropGarbage l).IsSuffix l :=
  List.dropWhile_suffix _

lemma dropGarbage_head (l : List Nat) :
    dropGarbage l = [] ∨ (dropGarbage l).head? = some START_BYTE := by
  induction l with
  | nil => exact Or.inl rfl
  | cons a t ih =>
    by_cases ha : a = START_BYTE
    · subst ha
      right
      simp [dropGarbage, List.dropWhile_cons]
    · simpa [dropGarbage, List.dropWhile_cons, bne_iff_ne, ha] using ih

lemma extractStep_stop_eq {buf rest : List Nat} (h : extractStep buf = StepResult.stop rest) :
    rest = dropGarbage buf := by
  simp only [extractStep] at h
  split at h
  · exact (StepResult.stop.inj h).symm
  · split at h
    · exact StepResult.noConfusion h
    · split at h
      · exact (StepResult.stop.inj h).symm
      · split at h
        · exact StepResult.noConfusion h
        · split at h
          · exact StepResult.noConfusion h
          · exact StepResult.noConfusion h

lemma extractStep_emit_spec {buf : List Nat} {r : ParseResult} {rest : List Nat}
    (h : extractStep buf = StepResult.emit r rest) :
    2 ≤ (dropGarbage buf).length ∧ ∃ n, 0 < n ∧ rest = (dropGarbage buf).drop n := by
  simp only [extractStep] at h
  split at h
  · exact StepResult.noConfusion h
  · rename_i hlen2
    refine ⟨by omega, ?_⟩
    split at h
    · exact ⟨1, Nat.one_pos, ((StepResult.emit.inj h).2).symm⟩
    · split at h
      · exact StepResult.noConfusion h
      · split at h
        · exact ⟨1, Nat.one_pos, ((StepResult.emit.inj h).2).symm⟩
        · split at h
          · exact ⟨1, Nat.one_pos, ((StepResult.emit.inj h).2).symm⟩
          · have hge : ¬((dropGarbage buf).getD 1 0 < MIN_FRAME_LEN ∨
                MAX_FRAME_LEN < (dropGarbage buf).getD 1 0) := by assumption
            have h6 : MIN_FRAME_LEN ≤ (dropGarbage buf).getD 1 0 :=
              Nat.le_of_not_lt (not_or.mp hge).1
            refine ⟨(dropGarbage buf).getD 1 0, ?_, ((StepResult.emit.inj h).2).symm⟩
            have : (0 : Nat) < MIN_FRAME_LEN := by norm_num [MIN_FRAME_LEN]
            omega

lemma extractStep_emit_shrinks {buf : List Nat} {r : ParseResult} {rest : List Nat}
    (h : extractStep buf = StepResult.emit r rest) :
    rest.length < buf.length := by
  obtain ⟨h2, n, hn, hrest⟩ := extractStep_emit_spec h
  have hle : (dropGarbage buf).length ≤ buf.length := (dropGarbage_suffix buf).length_le
  subst hrest
  simp only [List.length_drop]
  omega

lemma extractStep_emit_suffix {buf : List Nat} {r : ParseResult} {rest : List Nat}
    (h : extractStep buf = StepResult.emit r rest) :
    rest.IsSuffix buf := by
  obtain ⟨h2, n, hn, hrest⟩ := extractStep_emit_spec h
  subst hrest
  exact (List.drop_suffix n _).trans (dropGarbage_suffix buf)

lemma extractLoop_congr : ∀ (f g : Nat) (buf : List Nat),
    buf.length ≤ f → buf.length ≤ g → extractLoop f buf = extractLoop g buf := by
  intro f
  induction f with
  | zero =>
    intro g buf hf hg
    have : buf = [] := List.length_eq_zero.mp (Nat.le_zero.mp hf)
    subst this
    cases g with
    | zero => rfl
    | succ g => rfl
  | succ f ih =>
    intro g buf hf hg
    cases g with
    | zero =>
      have : buf = [] := List.length_eq_zero.mp (Nat.le_zero.mp hg)
      subst this
      rfl
    | succ g =>
      simp only [extractLoop]
      cases hstep : extractStep buf with
      | stop rest => rfl
      | emit r rest =>
        have hlt := extractStep_emit_shrinks hstep
        simp only [ih g rest (by omega) (by omega)]

lemma extractFrames_eq_extractLoop {f : Nat} {buf : List Nat} (h : buf.length ≤ f) :
    extractLoop f buf = extractFrames buf :=
  extractLoop_congr f buf.length buf h le_rfl

lemma dropGarbage_append {g : List Nat} (l : List Nat) (h : ∀ b ∈ g, b ≠ START_BYTE) :
    dropGarbage (g ++ l) = dropGarbage l := by
  induction g with
  | nil => rfl
  | cons a t ih =>
    have ha : a ≠ START_BYTE := h a (List.mem_cons_self a t)
    have ht : ∀ b ∈ t, b ≠ START_BYTE := fun b hb => h b (List.mem_cons_of_mem a hb)
    simpa [dropGarbage, List.dropWhile_cons, bne_iff_ne, ha] using ih ht

lemma extractStep_append_garbage {g : List Nat} (buf : List Nat)
    (h : ∀ b ∈ g, b ≠ START_BYTE) :
    extractStep (g ++ buf) = extractStep buf := by
  simp only [extractStep, dropGarbage_append buf h]

lemma extractFrames_step (buf : List Nat) :
    extractFrames buf =
      match extractStep buf with
      | StepResult.stop rest => ([], rest)
      | StepResult.emit r rest => (r :: (extractFrames rest).1, (extractFrames rest).2) := by
  cases buf with
  | nil => rfl
  | cons a t =>
    show extractLoop (a :: t).length (a :: t) = _
    simp only [List.length_cons, extractLoop]
    cases hstep : extractStep (a :: t) with
    | stop rest => rfl
    | emit r rest =>
      have hlt := extractStep_emit_shrinks hstep
      have he : extractLoop t.length rest = extractFrames rest :=
        extractFrames_eq_extractLoop (by simpa using Nat.lt_succ_iff.mp hlt)
      simp only [he]

-- Lemmas about the sorted association list modelling `std::map`.

lemma mem_mapInsert {p : Nat × PendingRequest} {k : Nat} {v : PendingRequest} :
    ∀ {l : PendingMap}, p ∈ mapInsert k v l → p = (k, v) ∨ p ∈ l := by
  intro l
  induction l with
  | nil => intro h; simpa [mapInsert] using h
  | cons e t ih =>
    obtain ⟨k', v'⟩ := e
    simp only [mapInsert]
    split
    · intro h
      rcases List.mem_cons.mp h with h | h
      · exact Or.inl h
      · exact Or.inr h
    · split
      · intro h
        rcases List.mem_cons.mp h with h | h
        · exact Or.inl h
        · exact Or.inr (List.mem_cons_of_mem _ h)
      · intro h
        rcases List.mem_cons.mp h with h | h
        · exact Or.inr (h ▸ List.mem_cons_self _ _)
        · rcases ih h with h | h
          · exact Or.inl h
          · exact Or.inr (List.mem_cons_of_mem _ h)

lemma mapInsert_pairwise (k : Nat) (v : PendingRequest) (l : PendingMap)
    (h : l.Pairwise (fun a b => a.1 < b.1)) :
    (mapInsert k v l).Pairwise (fun a b => a.1 < b.1) := by
  induction l with
  | nil => simp [mapInsert]
  | cons e t ih =>
    obtain ⟨k', v'⟩ := e
    obtain ⟨he, ht⟩ := List.pairwise_cons.mp h
    simp only [mapInsert]
    split
    · rename_i h1
      refine List.pairwise_cons.mpr ⟨?_, h⟩
      intro p hp
      rcases List.mem_cons.mp hp with hp1 | hp2
      · rw [hp1]; exact h1
      · exact lt_trans h1 (he p hp2)
    · rename_i h1
      split
      · rename_i h2
        refine List.pairwise_cons.mpr ⟨?_, ht⟩
        intro p hp
        exact h2 ▸ he p hp
      · rename_i h2
        refine List.pairwise_cons.mpr ⟨?_, ih ht⟩
        intro p hp
        rcases mem_mapInsert hp with hp1 | hp2
        · rw [hp1]
          omega
        · exact he p hp2

lemma pairwise_keys_nodup {l : PendingMap} (h : l.Pairwise (fun a b => a.1 < b.1)) :
    (l.map Prod.fst).Nodup := by
  induction l with
  | nil => simp
  | cons e t ih =>
    obtain ⟨he, ht⟩ := List.pairwise_cons.mp h
    simp only [List.map_cons, List.nodup_cons]
    refine ⟨fun hmem => ?_, ih ht⟩
    obtain ⟨p, hp, hpe⟩ := List.mem_map.mp hmem
    exact absurd hpe (Nat.ne_of_lt (he p hp)).symm

lemma lookup_mapInsert_self (k : Nat) (v : PendingRequest) (l : PendingMap) :
    List.lookup k (mapInsert k v l) = some v := by
  induction l with
  | nil => simp [mapInsert, List.lookup]
  | cons e t ih =>
    obtain ⟨k', v'⟩ := e
    simp only [mapInsert]
    split
    · simp [List.lookup]
    · split
      · simp [List.lookup]
      · rename_i h1 h2
        have hb : (k == k') = false := beq_false_of_ne h2
        simp [List.lookup, hb, ih]

lemma lookup_eq_none_of_not_mem_keys {k : Nat} :
    ∀ {l : PendingMap}, k ∉ l.map Prod.fst → List.lookup k l = none := by
  intro l
  induction l with
  | nil => intro _; rfl
  | cons e t ih =>
    obtain ⟨k', v'⟩ := e
    intro h
    simp only [List.map_cons, List.mem_cons] at h
    push_neg at h
    have hb : (k == k') = false := beq_false_of_ne h.1
    simp [List.lookup, hb, ih h.2]

lemma lookup_mapErase_self {k : Nat} {l : PendingMap} (h : (l.map Prod.fst).Nodup) :
    List.lookup k (mapErase k l) = none := by
  induction l with
  | nil => rfl
  | cons e t ih =>
    obtain ⟨k', v'⟩ := e
    simp only [List.map_cons, List.nodup_cons] at h
    obtain ⟨hk', ht⟩ := h
    simp only [mapErase]
    split
    · rename_i heq
      subst heq
      exact lookup_eq_none_of_not_mem_keys hk'
    · rename_i hne
      have hb : (k == k') = false := beq_false_of_ne hne
      simp [List.lookup, hb, ih ht]

/-- C1: the round-trip property fails on the code.  Serializing the logical
frame (ecu 0x81, command 0x10, empty data) emits the bytes
`7E 04 81 10 95 7F` — the length byte is 4, i.e. payload + 4 — and feeding
those bytes to a fresh parser yields a single `Invalid` outcome for the bad
length, not `Success` with the original frame. -/
theorem serialize_then_extract_not_success :
    serializeFrame ⟨129, 16, []⟩ = Except.ok [126, 4, 129, 16, 149, 127] ∧
      extractFrames [126, 4, 129, 16, 149, 127] =
        ([⟨ParseStatus.Invalid, none, "Invalid frame length: 4", [126, 4]⟩], []) := by
  decide

set_option maxRecDepth 4000 in
/-- C2: `serializeFrame` does not behave as claimed.  For the empty-payload
frame the emitted length byte is 4 (payload + 4), not payload + 6; a payload
of 248 bytes (greater than 247) is serialized without any failure; and only
at payload 250 and beyond does the function fail — by throwing
`std::runtime_error("Frame data too large")`, not by returning a
`PayloadTooLarge` outcome. -/
theorem serialize_len_byte_is_payload_plus_4 :
    (serializeFrame ⟨129, 16, []⟩ = Except.ok [126, 4, 129, 16, 149, 127]) ∧
      ((serializeFrame ⟨1, 16, List.replicate 248 0⟩).toOption.isSome = true) ∧
      serializeFrame ⟨1, 16, List.replicate 252 0⟩ = Except.error ("Frame data too large") := by
  decide

/-- C3: whenever an iteration of the extraction loop emits an `Invalid`
outcome (bad length byte, wrong end sentinel, or checksum mismatch — the
only `Invalid` kinds), the continuation buffer is the garbage-stripped
buffer minus exactly its first byte (the start sentinel), never the
`frame_length` bytes declared by the suspect length field; and the whole
`extractFrames` call is the emitted outcome followed by extraction from that
one-byte-shorter buffer. -/
theorem extract_invalid_pops_exactly_one_byte (buf : List Nat) (r : ParseResult)
    (rest : List Nat) (hstep : extractStep buf = StepResult.emit r rest)
    (hinv : r.status = ParseStatus.Invalid) :
    rest = (dropGarbage buf).drop 1 ∧
      (extractFrames buf).1 = r :: (extractFrames rest).1 ∧
      (extractFrames buf).2 = (extractFrames rest).2 := by
  have hrest1 : rest = (dropGarbage buf).drop 1 := by
    simp only [extractStep] at hstep
    split at hstep
    · exact StepResult.noConfusion hstep
    · split at hstep
      · exact ((StepResult.emit.inj hstep).2).symm
      · split at hstep
        · exact StepResult.noConfusion hstep
        · split at hstep
          · exact ((StepResult.emit.inj hstep).2).symm
          · split at hstep
            · exact ((StepResult.emit.inj hstep).2).symm
            · have hr := (StepResult.emit.inj hstep).1
              rw [← hr] at hinv
              exact absurd hinv (by simp)
  refine ⟨hrest1, ?_, ?_⟩
  · rw [extractFrames_step buf, hstep]
  · rw [extractFrames_step buf, hstep]

/-- Witness for C3: the buffer `7E 03` triggers a bad-length `Invalid`
outcome, and the theorem yields that exactly one byte (the `7E`) is
removed. -/
theorem extract_invalid_pops_exactly_one_byte_witness :
    extractStep [126, 3] =
        StepResult.emit ⟨ParseStatus.Invalid, none, "Invalid frame length: 3", [126, 3]⟩ [3] ∧
      [3] = (dropGarbage [126, 3]).drop 1 :=
  ⟨by decide, (extract_invalid_pops_exactly_one_byte [126, 3]
      ⟨ParseStatus.Invalid, none, "Invalid frame length: 3", [126, 3]⟩ [3]
      (by decide) (by decide)).1⟩

/-- C4 counterexample: after the parser has emitted a frame, garbage bytes
before the next start sentinel are still discarded silently.  Feeding a
valid frame, then the garbage byte `0xAA`, then the same valid frame yields
exactly two `Success` outcomes and no `Invalid{GarbageBeforeStart}` outcome
between them, refuting the claimed mid-session reporting rule. -/
theorem garbage_after_success_not_reported :
    extractFrames ([126, 6, 129, 16, 151, 127] ++ 170 :: [126, 6, 129, 16, 151, 127]) =
      ([⟨ParseStatus.Success, some ⟨129, 16, []⟩, "", [126, 6, 129, 16, 151, 127]⟩,
        ⟨ParseStatus.Success, some ⟨129, 16, []⟩, "", [126, 6, 129, 16, 151, 127]⟩], []) := by
  decide

/-- C4 (amended): bytes that precede the first `0x7E` are always discarded
silently by `extractFrames`, whether or not any frame has been emitted
before: prepending any start-sentinel-free garbage to the buffer leaves the
results and the residual buffer unchanged. -/
theorem garbage_always_silently_discarded (g rest : List Nat)
    (h : ∀ b ∈ g, b ≠ START_BYTE) :
    extractFrames (g ++ rest) = extractFrames rest := by
  rw [extractFrames_step (g ++ rest), extractFrames_step rest,
    extractStep_append_garbage rest h]

/-- Witness for the amended C4: the garbage byte `0xAA` before a valid frame
changes nothing. -/
theorem garbage_always_silently_discarded_witness :
    (∀ b ∈ [170], b ≠ START_BYTE) ∧
      extractFrames ([170] ++ [126, 6, 129, 16, 151, 127]) =
        extractFrames [126, 6, 129, 16, 151, 127] :=
  ⟨by decide, garbage_always_silently_discarded [170] [126, 6, 129, 16, 151, 127] (by decide)⟩

/-- C5: the built parser never emits a trailing `Incomplete` outcome.  With
the buffer `7E 07 85 50` — a start byte, a valid length 7, and only 4 of the
7 declared bytes — `extractFrames` returns no outcome at all (the project's
own test suite requires one `Incomplete` with 3 missing bytes here). -/
theorem incomplete_never_emitted :
    extractFrames [126, 7, 133, 80] = ([], [126, 7, 133, 80]) := by
  decide

/-- C6: after every `extractFrames` call the residual buffer is either empty
or begins with the start sentinel `0x7E`, and it is a suffix of the input
buffer — every consumed byte, in particular every byte of a `Success`
outcome, has been removed from the front. -/
theorem extract_buffer_invariant (buf : List Nat) :
    ((extractFrames buf).2 = [] ∨ (extractFrames buf).2.head? = some START_BYTE) ∧
      (extractFrames buf).2.IsSuffix buf := by
  have main : ∀ (f : Nat) (b : List Nat),
      ((extractLoop f b).2 = [] ∨ (extractLoop f b).2.head? = some START_BYTE) ∧
        (extractLoop f b).2.IsSuffix b := by
    intro f
    induction f with
    | zero => intro b; exact ⟨dropGarbage_head b, dropGarbage_suffix b⟩
    | succ f ih =>
      intro b
      simp only [extractLoop]
      cases hstep : extractStep b with
      | stop rest =>
        have he := extractStep_stop_eq hstep
        subst he
        exact ⟨dropGarbage_head b, dropGarbage_suffix b⟩
      | emit r rest =>
        obtain ⟨h1, h2⟩ := ih rest
        exact ⟨h1, h2.trans (extractStep_emit_suffix hstep)⟩
  exact main buf.length buf

/-- C7: the routing key does not strip the response bit.  With one live
pending entry for the request (ecu 0x01, command 0x10), the response frame
sent by ECU 1 as ecu 0x81 (= 0x01 | 0x80) with the same command matches no
entry, because `findMatchingRequest` compares the raw `ecu_id` bytes —
although 0x81 & 0x7F equals the request's ecu 0x01. -/
theorem response_bit_never_stripped :
    findMatchingRequest [(1, ⟨⟨1, 16, []⟩, 100, false⟩)] ⟨129, 16, [1]⟩ = none ∧
      129 &&& 127 = 1 ∧ (129 : Nat) ≠ 1 := by
  decide

/-- C8 counterexample: registration never advances past a live sequence and
never fails with `TableFull` — it silently replaces.  From the state with
`last_sequence = 0` and a live, uncompleted entry stored under sequence 1,
`sendFrame` allocates sequence 1 again and overwrites the old entry with the
new request. -/
theorem register_silently_replaces_live_entry :
    sendFrame ⟨[(1, ⟨⟨1, 16, []⟩, 1000, false⟩)], 0⟩ ⟨2, 32, []⟩ 0 50 1000 =
      ⟨[(1, ⟨⟨2, 32, []⟩, 50, false⟩)], 1⟩ := by
  decide

/-- C8 (amended): live sequence numbers are unique — the table is a map
keyed by the sequence number, and registration preserves the sorted-key
invariant, so the key list stays duplicate-free.  Registration allocates
`(last_sequence + 1) mod 256` unconditionally and stores the new request
under it (overwriting any live entry with that key; no `TableFull` failure
exists in the code). -/
theorem register_allocates_next_and_keeps_keys_unique (st : TransState) (f : VdpFrame)
    (now timeout_ms default_timeout : Nat)
    (h : st.pending_requests.Pairwise (fun a b => a.1 < b.1)) :
    (sendFrame st f now timeout_ms default_timeout).last_sequence =
        (st.last_sequence + 1) % 256 ∧
      ((sendFrame st f now timeout_ms default_timeout).pending_requests.map Prod.fst).Nodup ∧
      List.lookup ((st.last_sequence + 1) % 256)
          (sendFrame st f now timeout_ms default_timeout).pending_requests =
        some ⟨f, now + (if timeout_ms = 0 then default_timeout else timeout_ms), false⟩ := by
  refine ⟨rfl, ?_, ?_⟩
  · exact pairwise_keys_nodup (mapInsert_pairwise _ _ _ h)
  · exact lookup_mapInsert_self _ _ _

/-- Witness for the amended C8: registering into the empty table allocates
sequence 1 and stores the request there with deadline `now + timeout`. -/
theorem register_allocates_next_and_keeps_keys_unique_witness :
    ([] : PendingMap).Pairwise (fun a b => a.1 < b.1) ∧
      ((sendFrame ⟨[], 0⟩ ⟨1, 16, []⟩ 0 5 9).last_sequence = (0 + 1) % 256 ∧
        ((sendFrame ⟨[], 0⟩ ⟨1, 16, []⟩ 0 5 9).pending_requests.map Prod.fst).Nodup ∧
        List.lookup ((0 + 1) % 256) (sendFrame ⟨[], 0⟩ ⟨1, 16, []⟩ 0 5 9).pending_requests =
          some ⟨⟨1, 16, []⟩, 0 + (if (5 : Nat) = 0 then 9 else 5), false⟩) :=
  ⟨by decide,
   register_allocates_next_and_keeps_keys_unique ⟨[], 0⟩ ⟨1, 16, []⟩ 0 5 9 (by decide)⟩

/-- C9: when `sendAndWait`'s deadline elapses with no response, the call
returns a `Timeout` result — but the pending entry registered for the
request is NOT removed: starting from the empty table, after the timed-out
call the entry is still stored under sequence 1. -/
theorem sendAndWait_timeout_leaves_entry :
    (sendAndWaitTimedOut ⟨[], 0⟩ ⟨1, 16, []⟩ 0 10 1000).1.status = ParseStatus.Timeout ∧
      List.lookup 1 (sendAndWaitTimedOut ⟨[], 0⟩ ⟨1, 16, []⟩ 0 10 1000).2.pending_requests =
        some ⟨⟨1, 16, []⟩, 10, false⟩ := by
  decide

/-- C10: for an ACK control frame whose first data byte names a live pending
sequence, a second data byte equal to 0x00 or 0x80 makes the handler receive
a result of status `Error` with the invalid-status message, while no second
byte or any other second byte yields `Success`; in every case the pending
entry is removed from the table. -/
theorem ack_invalid_status_treated_as_error (pending : PendingMap) (frame : VdpFrame)
    (sequence : Nat) (rest : List Nat)
    (hdata : frame.data = sequence :: rest)
    (hsort : pending.Pairwise (fun a b => a.1 < b.1))
    (hlive : (List.lookup sequence pending).isSome = true) :
    ((rest ≠ [] ∧ (rest.getD 0 0 = 0 ∨ rest.getD 0 0 = 128)) →
        (handleAckNak pending frame true).1 =
          some ⟨ParseStatus.Error, some frame,
            "ACK with invalid status code: 0x" ++ to_hex (rest.getD 0 0), []⟩) ∧
      ((rest = [] ∨ (rest.getD 0 0 ≠ 0 ∧ rest.getD 0 0 ≠ 128)) →
        (handleAckNak pending frame true).1 =
          some ⟨ParseStatus.Success, some frame, "ACK received", []⟩) ∧
      List.lookup sequence (handleAckNak pending frame true).2 = none := by
  obtain ⟨entry, hentry⟩ := Option.isSome_iff_exists.mp hlive
  refine ⟨?_, ?_, ?_⟩
  · rintro ⟨hne, hval⟩
    cases rest with
    | nil => exact absurd rfl hne
    | cons s t =>
      simp only [List.getD_cons_zero] at hval ⊢
      rcases hval with hval | hval <;> subst hval <;>
        simp [handleAckNak, hdata, hentry]
  · intro hsucc
    rcases hsucc with hnil | ⟨h0, h128⟩
    · subst hnil
      simp [handleAckNak, hdata, hentry]
    · cases rest with
      | nil => simp [handleAckNak, hdata, hentry]
      | cons s t =>
        simp only [List.getD_cons_zero] at h0 h128
        simp [handleAckNak, hdata, hentry, h0, h128]
  · have h2 : (handleAckNak pending frame true).2 = mapErase sequence pending := by
      simp [handleAckNak, hdata, hentry]
    rw [h2]
    exact lookup_mapErase_self (pairwise_keys_nodup hsort)

/-- Witness for C10: an ACK naming live sequence 5 with second data byte
0x00 invokes the handler with status `Error` and removes the entry. -/
theorem ack_invalid_status_treated_as_error_witness :
    (handleAckNak [(5, ⟨⟨1, 16, []⟩, 9, false⟩)] ⟨129, 6, [5, 0]⟩ true).1 =
        some ⟨ParseStatus.Error, some ⟨129, 6, [5, 0]⟩,
          "ACK with invalid status code: 0x" ++ to_hex (([0] : List Nat).getD 0 0), []⟩ ∧
      List.lookup 5 (handleAckNak [(5, ⟨⟨1, 16, []⟩, 9, false⟩)] ⟨129, 6, [5, 0]⟩ true).2 =
        none :=
  ⟨(ack_invalid_status_treated_as_error [(5, ⟨⟨1, 16, []⟩, 9, false⟩)] ⟨129, 6, [5, 0]⟩
      5 [0] rfl (by decide) (by decide)).1 ⟨by decide, Or.inl rfl⟩,
   (ack_invalid_status_treated_as_error [(5, ⟨⟨1, 16, []⟩, 9, false⟩)] ⟨129, 6, [5, 0]⟩
      5 [0] rfl (by decide) (by decide)).2.2⟩

end VDP
